import Mathlib

/-!
Shallow embedding of the `from_file` crate (src/from_file/src/lib.rs) and its
derive helper (src/from_file_derive/src/lib.rs).

The crate defines a trait `FromFile` whose default methods load a typed value
from a file path string: resolve `[scheme:]path`, read the file, dispatch on
the extension, and decode via serde_json / serde_yaml.  External collaborators
(the filesystem, the working directory, and the two serde decoders) are
modelled as explicit parameters:
  * `fs : String → FsOutcome` models `File::open` plus `read_to_string` on a
    path;
  * `cwd : Option String` models `std::env::current_dir()` (`none` = failure);
  * `jsonDec, yamlDec : String → Except String T` model `serde_json::from_str`
    and `serde_yaml::from_str` for the target type `T`, returning the decoder
    diagnostic message on failure.
Rust panics (`expect`) are modelled by the `RunResult.panic` outcome.
-/

deriving instance DecidableEq for Except

/-- Mirrors `enum FromFileError` from src/from_file/src/lib.rs. -/
inductive FromFileError where
  | InvalidExtension
  | InvalidInput
  | FileOpen (path : String)
  | FileRead
  | SerdeError (msg : String)
deriving DecidableEq, Repr

/-- Outcome of the filesystem collaborator on one path: `File::open` fails,
`read_to_string` fails, or the full contents are obtained. -/
inductive FsOutcome where
  | openErr
  | readErr
  | ok (contents : String)
deriving DecidableEq, Repr

/-- Result of running a trait method: a Rust panic (process abort via
`expect`), a typed `Err`, or `Ok`. -/
inductive RunResult (T : Type) where
  | panic (msg : String)
  | error (e : FromFileError)
  | ok (v : T)
deriving DecidableEq, Repr

/-- Injects a panic-free `Result` into `RunResult`. -/
def liftE {T : Type} : Except FromFileError T → RunResult T
  | Except.error e => RunResult.error e
  | Except.ok v => RunResult.ok v

/-- Mirrors Rust `str::split` on a single-character pattern: splits a character
list at every occurrence of `sep`, keeping empty pieces, and always yields at
least one piece (`"".split(":")` yields `[""]`). -/
def splitChar (sep : Char) : List Char → List (List Char)
  | [] => [[]]
  | c :: rest =>
    if c = sep then [] :: splitChar sep rest
    else
      match splitChar sep rest with
      | [] => [[c]]
      | s :: ss => (c :: s) :: ss

/-- Mirrors `FromFile::get_file_path`: split the input on `":"` and match on
the number of pieces — one piece: the whole input is the path; two pieces: the
piece after the colon is the path; anything else: `InvalidInput`. -/
def get_file_path (input : String) : Except FromFileError String :=
  match (splitChar ':' input.data).map String.mk with
  | [p] => Except.ok p
  | [_, p] => Except.ok p
  | _ => Except.error FromFileError.InvalidInput

/-- Mirrors Rust `Path::file_name` on Unix: the last path component, skipping
empty components and `.` components; `none` when the path is empty, is a root,
or terminates in `..`. -/
def file_name (p : String) : Option String :=
  match (splitChar '/' p.data).filter (fun c => c ≠ [] && c ≠ ['.']) |>.getLast? with
  | none => none
  | some c => if c = ['.', '.'] then none else some (String.mk c)

/-- Splits a character list around its LAST `'.'`: returns the pieces before
and after it, or `none` when no `'.'` occurs. -/
def splitLastDot : List Char → Option (List Char × List Char)
  | [] => none
  | c :: rest =>
    match splitLastDot rest with
    | some (b, a) => some ((c :: b, a))
    | none => if c = '.' then some (([], rest)) else none

/-- Mirrors Rust `Path::extension`: the part of the file name after its final
`'.'`; `none` when there is no file name, no `'.'`, or the only `'.'` is the
leading character of the file name (hidden files such as `".json"`). -/
def extension (p : String) : Option String :=
  match file_name p with
  | none => none
  | some f =>
    match splitLastDot f.data with
    | none => none
    | some (before, after) => if before = [] then none else some (String.mk after)

/-- Mirrors Rust `PathBuf::push`: an absolute child replaces the path,
otherwise the child is appended with a `/` separator when one is missing. -/
def pushPath (base child : String) : String :=
  match child.data with
  | '/' :: _ => child
  | _ =>
    match base.data.getLast? with
    | some '/' => base ++ child
    | some _ => base ++ "/" ++ child
    | none => child

/-- Mirrors `FromFile::file_read`: build the diagnostic path by pushing the
input onto the current directory (panicking via `expect("can read current
dir")` when the current directory cannot be read), then open and read the
file, mapping an open failure to `FileOpen(diagnostic path)` and a read
failure to `FileRead`. -/
def file_read (cwd : Option String) (fs : String → FsOutcome) (input : String) :
    RunResult String :=
  match cwd with
  | none => RunResult.panic "can read current dir"
  | some dir =>
    let maybe_path := pushPath dir input
    match fs input with
    | FsOutcome.openErr => RunResult.error (FromFileError.FileOpen maybe_path)
    | FsOutcome.readErr => RunResult.error FromFileError.FileRead
    | FsOutcome.ok contents => RunResult.ok contents

/-- Mirrors `FromFile::from_yaml_string`: run the YAML decoder and wrap its
diagnostic message in `SerdeError`, unmodified. -/
def from_yaml_string {T : Type} (yamlDec : String → Except String T)
    (contents : String) : Except FromFileError T :=
  match yamlDec contents with
  | Except.error e => Except.error (FromFileError.SerdeError e)
  | Except.ok v => Except.ok v

/-- Mirrors `FromFile::from_json_string`: run the JSON decoder and wrap its
diagnostic message in `SerdeError`, unmodified. -/
def from_json_string {T : Type} (jsonDec : String → Except String T)
    (contents : String) : Except FromFileError T :=
  match jsonDec contents with
  | Except.error e => Except.error (FromFileError.SerdeError e)
  | Except.ok v => Except.ok v

/-- Mirrors `FromFile::from_yml_file`: resolve the path, read the file, decode
as YAML (`get_file_path` then `file_read` then `from_yaml_string`, chained
with `and_then`). -/
def from_yml_file {T : Type} (yamlDec : String → Except String T)
    (cwd : Option String) (fs : String → FsOutcome) (input : String) :
    RunResult T :=
  match get_file_path input with
  | Except.error e => RunResult.error e
  | Except.ok p =>
    match file_read cwd fs p with
    | RunResult.panic m => RunResult.panic m
    | RunResult.error e => RunResult.error e
    | RunResult.ok contents => liftE (from_yaml_string yamlDec contents)

/-- Mirrors `FromFile::from_json_file`: resolve the path, read the file,
decode as JSON (`get_file_path` then `file_read` then `from_json_string`,
chained with `and_then`). -/
def from_json_file {T : Type} (jsonDec : String → Except String T)
    (cwd : Option String) (fs : String → FsOutcome) (input : String) :
    RunResult T :=
  match get_file_path input with
  | Except.error e => RunResult.error e
  | Except.ok p =>
    match file_read cwd fs p with
    | RunResult.panic m => RunResult.panic m
    | RunResult.error e => RunResult.error e
    | RunResult.ok contents => liftE (from_json_string jsonDec contents)

/-- Mirrors `FromFile::from_file`: take the extension of the RAW input string
(`PathBuf::from(input).extension()`), fail with `InvalidExtension` when it is
absent, then dispatch on it — `"json"` to `from_json_file`, `"yml"`/`"yaml"`
to `from_yml_file`, anything else to `InvalidExtension`. -/
def from_file {T : Type} (jsonDec yamlDec : String → Except String T)
    (cwd : Option String) (fs : String → FsOutcome) (input : String) :
    RunResult T :=
  match extension input with
  | none => RunResult.error FromFileError.InvalidExtension
  | some ext =>
    if ext = "json" then from_json_file jsonDec cwd fs input
    else if ext = "yml" ∨ ext = "yaml" then from_yml_file yamlDec cwd fs input
    else RunResult.error FromFileError.InvalidExtension

/-- Lowercase hexadecimal digit, as Rust `{:x}` formatting uses. -/
def hexDigit (n : Nat) : Char :=
  if n < 10 then Char.ofNat (48 + n) else Char.ofNat (87 + n)

/-- Lowercase hexadecimal digits of `n`, most significant first, without
leading zeros (`0` renders as `"0"`), as Rust `{:x}` formatting produces.
Structural recursion on a fuel bound; fuel `8` covers every Unicode scalar
value, whose hex form has at most six digits. -/
def hexDigits (fuel n : Nat) : List Char :=
  match fuel with
  | 0 => []
  | fuel' + 1 =>
    if n < 16 then [hexDigit n]
    else hexDigits fuel' (n / 16) ++ [hexDigit (n % 16)]

/-- Mirrors Rust `char::escape_unicode` as emitted inside `escape_debug`:
the characters of `\u{` followed by the scalar value in lowercase hex and
`}` (the braces written via their code points). -/
def escapeUnicode (c : Char) : List Char :=
  '\\' :: 'u' :: Char.ofNat 123 :: (hexDigits 8 c.toNat ++ [Char.ofNat 125])

/-- Mirrors Rust `char::escape_debug_ext` as `Debug for str` uses it (double
quotes escaped, single quotes not, grapheme-extended escaping on): NUL, tab,
carriage return, line feed, backslash and double quote map to their fixed
two-character escapes; a grapheme-extended character maps to its `\u{...}`
escape; a printable character stays as itself; every other character maps to
its `\u{...}` escape. The Unicode classification tables behind
`is_printable` and `is_grapheme_extended` live in Rust's core library, so
they are modelled as opaque predicate parameters. -/
def escapeChar (printable graphemeExtended : Char → Bool) (c : Char) : List Char :=
  if c = Char.ofNat 0 then ['\\', '0']
  else if c = '\t' then ['\\', 't']
  else if c = '\r' then ['\\', 'r']
  else if c = '\n' then ['\\', 'n']
  else if c = '\\' then ['\\', '\\']
  else if c = '"' then ['\\', '"']
  else if graphemeExtended c then escapeUnicode c
  else if printable c then [c]
  else escapeUnicode c

/-- Mirrors Rust `{:?}` formatting of a `PathBuf`: the path's string wrapped
in double quotes with each character escaped per `char::escape_debug_ext`,
relative to the given Unicode classification tables. -/
def debugStr (printable graphemeExtended : Char → Bool) (s : String) : String :=
  String.mk ('"' :: (s.data.map (escapeChar printable graphemeExtended)).flatten ++ ['"'])

/-- Mirrors `impl Display for FromFileError` from src/from_file/src/lib.rs,
relative to the Unicode classification tables `{:?}` consults. -/
def display (printable graphemeExtended : Char → Bool) : FromFileError → String
  | FromFileError.InvalidExtension => "FromFileError::InvalidExtension"
  | FromFileError.InvalidInput => "FromFileError::InvalidInput"
  | FromFileError.FileOpen p =>
    "FromFileError::FileOpen - couldn\'t open " ++ debugStr printable graphemeExtended p
  | FromFileError.FileRead => "FromFileError::FileRead"
  | FromFileError.SerdeError e => "FromFileError::SerdeError - " ++ e

/-- Mirrors `syn::DeriveInput` as far as the derive macro reads it: only the
identifier of the type the derive is attached to. -/
structure DeriveInput where
  ident : String
deriving DecidableEq

/-- Mirrors `impl_from_file_macro` from src/from_file_derive/src/lib.rs: the
emitted token stream is `impl FromFile for #name { }` — the empty capability
attachment for the named type, nothing more. -/
def impl_from_file_gen (ast : DeriveInput) : List String :=
  ["impl", "FromFile", "for", ast.ident, "\x7b", "\x7d"]

/-- The declaration a user writes by hand to opt a type into the trait:
`impl FromFile for Name { }`. -/
def hand_written_empty_impl (name : String) : List String :=
  ["impl", "FromFile", "for", name, "\x7b", "\x7d"]

/-- The runtime meaning of a `FromFile` impl for `T`: the operations the trait
provides. The trait declares only default methods, so an impl block with an
empty body gives `T` exactly the default operations. -/
structure FromFileMethods (T : Type) where
  loadOp : (String → Except String T) → (String → Except String T) →
    Option String → (String → FsOutcome) → String → RunResult T
  loadJsonOp : (String → Except String T) → Option String →
    (String → FsOutcome) → String → RunResult T
  loadYamlOp : (String → Except String T) → Option String →
    (String → FsOutcome) → String → RunResult T
  resolveOp : String → Except FromFileError String
  readOp : Option String → (String → FsOutcome) → String → RunResult String

/-- The trait-default operations of `FromFile`. -/
def defaultMethods (T : Type) : FromFileMethods T :=
  ⟨from_file, from_json_file, from_yml_file, get_file_path, file_read⟩

/-- Semantics of an impl declaration token stream: an empty
`impl FromFile for N { }` block overrides nothing, so every method resolves to
the trait default; any other token stream is not an empty capability
attachment. -/
def implSemantics (T : Type) (decl : List String) : Option (FromFileMethods T) :=
  match decl with
  | ["impl", "FromFile", "for", _, "\x7b", "\x7d"] => some (defaultMethods T)
  | _ => none

/-- Concrete decoder that rejects every document, used to instantiate the
generic theorems at closed inputs. -/
def decFail : String → Except String Unit := fun _ => Except.error "decoder failure"

/-- Concrete filesystem on which every open fails. -/
def fsAllOpenErr : String → FsOutcome := fun _ => FsOutcome.openErr

/-- Concrete encoder for a one-field boolean document. -/
def encBool : Bool → String := fun b => if b then "true" else "false"

/-- Concrete decoder inverting `encBool`, rejecting any other document with a
diagnostic message. -/
def decBool : String → Except String Bool := fun s =>
  if s = "true" then Except.ok true
  else if s = "false" then Except.ok false
  else Except.error "expected boolean"

/-- Observes whether a run outcome is a process abort. -/
def isPanic {T : Type} : RunResult T → Bool
  | RunResult.panic _ => true
  | _ => false

/-- Concrete instantiation of the printable-character table, used only to
instantiate theorems at closed inputs: the ASCII printable range (space
through tilde), on which the Rust table and this predicate agree. -/
def asciiPrintable : Char → Bool := fun c => 32 ≤ c.toNat && c.toNat ≤ 126

/-- Concrete instantiation of the grapheme-extended table, used only to
instantiate theorems at closed inputs: ASCII characters are never
grapheme-extended, so the constantly-false table agrees with Rust on them. -/
def noGraphemeExtended : Char → Bool := fun _ => false

theorem string_mk_data (s : String) : String.mk s.data = s := rfl

theorem string_data_append (s t : String) : (s ++ t).data = s.data ++ t.data := rfl

theorem splitChar_of_not_mem (sep : Char) (l : List Char) (h : sep ∉ l) :
    splitChar sep l = [l] := by
  induction l with
  | nil => rfl
  | cons c rest ih =>
    have hc : ¬(c = sep) := fun hh => h (hh ▸ List.mem_cons_self _ _)
    have hr : sep ∉ rest := fun hh => h (List.mem_cons_of_mem _ hh)
    simp [splitChar, hc, ih hr]

theorem splitChar_append (sep : Char) (a b : List Char) (h : sep ∉ a) :
    splitChar sep (a ++ sep :: b) = a :: splitChar sep b := by
  induction a with
  | nil => simp [splitChar]
  | cons c rest ih =>
    have hc : ¬(c = sep) := fun hh => h (hh ▸ List.mem_cons_self _ _)
    have hr : sep ∉ rest := fun hh => h (List.mem_cons_of_mem _ hh)
    simp only [List.cons_append, splitChar, if_neg hc, List.append_eq, ih hr]

theorem length_splitChar (sep : Char) (l : List Char) :
    (splitChar sep l).length = l.count sep + 1 := by
  induction l with
  | nil => simp [splitChar]
  | cons c rest ih =>
    by_cases hc : c = sep
    · subst hc
      simp [splitChar, List.count_cons, ih]
    · cases hsp : splitChar sep rest with
      | nil => rw [hsp] at ih; simp at ih
      | cons s ss =>
        rw [hsp] at ih
        simp only [splitChar, if_neg hc, hsp, List.length_cons, List.count_cons] at *
        simp [hc]
        omega

theorem get_file_path_no_colon (s : String) (h : ':' ∉ s.data) :
    get_file_path s = Except.ok s := by
  unfold get_file_path
  rw [splitChar_of_not_mem _ _ h]
  simp [string_mk_data]

theorem get_file_path_one_colon (a b : List Char) (ha : ':' ∉ a) (hb : ':' ∉ b) :
    get_file_path (String.mk (a ++ ':' :: b)) = Except.ok (String.mk b) := by
  unfold get_file_path
  have hd : (String.mk (a ++ ':' :: b)).data = a ++ ':' :: b := rfl
  rw [hd, splitChar_append _ _ _ ha, splitChar_of_not_mem _ _ hb]
  simp

theorem get_file_path_two_colons (s : String) (h : 2 ≤ s.data.count ':') :
    get_file_path s = Except.error FromFileError.InvalidInput := by
  have hlen : 3 ≤ (splitChar ':' s.data).length := by
    rw [length_splitChar]; omega
  unfold get_file_path
  cases hsp : splitChar ':' s.data with
  | nil => rw [hsp] at hlen; simp at hlen
  | cons x xs =>
    cases xs with
    | nil => rw [hsp] at hlen; simp at hlen
    | cons y ys =>
      cases ys with
      | nil => rw [hsp] at hlen; simp at hlen
      | cons z zs => rfl

theorem from_file_dispatch_json {T : Type} (jd yd : String → Except String T)
    (cwd : Option String) (fs : String → FsOutcome) (p : String)
    (h : extension p = some "json") :
    from_file jd yd cwd fs p = from_json_file jd cwd fs p := by
  simp [from_file, h]

theorem from_file_dispatch_yaml {T : Type} (jd yd : String → Except String T)
    (cwd : Option String) (fs : String → FsOutcome) (p : String)
    (h : extension p = some "yml" ∨ extension p = some "yaml") :
    from_file jd yd cwd fs p = from_yml_file yd cwd fs p := by
  cases h with
  | inl h => simp [from_file, h]
  | inr h => simp [from_file, h]

theorem from_file_bad_ext {T : Type} (jd yd : String → Except String T)
    (cwd : Option String) (fs : String → FsOutcome) (p : String)
    (h1 : extension p ≠ some "json") (h2 : extension p ≠ some "yml")
    (h3 : extension p ≠ some "yaml") :
    from_file jd yd cwd fs p = RunResult.error FromFileError.InvalidExtension := by
  cases hext : extension p with
  | none => simp [from_file, hext]
  | some e =>
    have e1 : ¬(e = "json") := fun hh => h1 (by rw [hext, hh])
    have e2 : ¬(e = "yml" ∨ e = "yaml") := by
      rintro (hh | hh)
      · exact h2 (by rw [hext, hh])
      · exact h3 (by rw [hext, hh])
    simp [from_file, hext, e1, e2]

theorem from_json_file_resolve_err {T : Type} (jd : String → Except String T)
    (cwd : Option String) (fs : String → FsOutcome) (s : String)
    (e : FromFileError) (h : get_file_path s = Except.error e) :
    from_json_file jd cwd fs s = RunResult.error e := by
  simp [from_json_file, h]

theorem from_yml_file_resolve_err {T : Type} (yd : String → Except String T)
    (cwd : Option String) (fs : String → FsOutcome) (s : String)
    (e : FromFileError) (h : get_file_path s = Except.error e) :
    from_yml_file yd cwd fs s = RunResult.error e := by
  simp [from_yml_file, h]

theorem from_json_file_open_err {T : Type} (jd : String → Except String T)
    (c : String) (fs : String → FsOutcome) (s p : String)
    (h : get_file_path s = Except.ok p) (hfs : fs p = FsOutcome.openErr) :
    from_json_file jd (some c) fs s =
      RunResult.error (FromFileError.FileOpen (pushPath c p)) := by
  simp [from_json_file, file_read, h, hfs]

theorem from_yml_file_open_err {T : Type} (yd : String → Except String T)
    (c : String) (fs : String → FsOutcome) (s p : String)
    (h : get_file_path s = Except.ok p) (hfs : fs p = FsOutcome.openErr) :
    from_yml_file yd (some c) fs s =
      RunResult.error (FromFileError.FileOpen (pushPath c p)) := by
  simp [from_yml_file, file_read, h, hfs]

theorem from_json_file_content {T : Type} (jd : String → Except String T)
    (c : String) (fs : String → FsOutcome) (s p content : String)
    (h : get_file_path s = Except.ok p) (hfs : fs p = FsOutcome.ok content) :
    from_json_file jd (some c) fs s = liftE (from_json_string jd content) := by
  simp [from_json_file, file_read, h, hfs]

theorem from_yml_file_content {T : Type} (yd : String → Except String T)
    (c : String) (fs : String → FsOutcome) (s p content : String)
    (h : get_file_path s = Except.ok p) (hfs : fs p = FsOutcome.ok content) :
    from_yml_file yd (some c) fs s = liftE (from_yaml_string yd content) := by
  simp [from_yml_file, file_read, h, hfs]

theorem isPanic_liftE {T : Type} (x : Except FromFileError T) :
    isPanic (liftE x) = false := by
  cases x <;> rfl

theorem no_panic_from_json_file {T : Type} (jd : String → Except String T)
    (c : String) (fs : String → FsOutcome) (s : String) :
    isPanic (from_json_file jd (some c) fs s) = false := by
  unfold from_json_file
  cases hres : get_file_path s with
  | error e => rfl
  | ok p =>
    cases hfs : fs p with
    | openErr => simp [file_read, hfs, isPanic]
    | readErr => simp [file_read, hfs, isPanic]
    | ok content => simp [file_read, hfs, isPanic_liftE]

theorem no_panic_from_yml_file {T : Type} (yd : String → Except String T)
    (c : String) (fs : String → FsOutcome) (s : String) :
    isPanic (from_yml_file yd (some c) fs s) = false := by
  unfold from_yml_file
  cases hres : get_file_path s with
  | error e => rfl
  | ok p =>
    cases hfs : fs p with
    | openErr => simp [file_read, hfs, isPanic]
    | readErr => simp [file_read, hfs, isPanic]
    | ok content => simp [file_read, hfs, isPanic_liftE]

theorem escapeChar_eq_self (printable graphemeExtended : Char → Bool) (c : Char)
    (hp : printable c = true) (hg : graphemeExtended c = false)
    (hs : c ∉ [Char.ofNat 0, '\t', '\r', '\n', '\\', '"']) :
    escapeChar printable graphemeExtended c = [c] := by
  simp only [List.mem_cons, List.mem_singleton, List.not_mem_nil, or_false,
    not_or] at hs
  obtain ⟨h0, ht, hr, hn, hb, hq⟩ := hs
  simp [escapeChar, h0, ht, hr, hn, hb, hq, hg, hp]

theorem join_map_escapeChar (printable graphemeExtended : Char → Bool)
    (l : List Char) (h : ∀ c ∈ l, escapeChar printable graphemeExtended c = [c]) :
    (l.map (escapeChar printable graphemeExtended)).flatten = l := by
  induction l with
  | nil => rfl
  | cons c rest ih =>
    simp only [List.map_cons, List.flatten_cons, h c (List.mem_cons_self _ _),
      ih (fun x hx => h x (List.mem_cons_of_mem _ hx)), List.singleton_append]

/-- C1, counterexample: the claim says an input with two or more `:`
delimiters, such as `"a:b:c"`, always fails with `InvalidInput` because path
resolution runs first. On the code, `from_file` checks the extension of the
raw input first, so `"a:b:c"` (which has no extension) fails with
`InvalidExtension`, not `InvalidInput`. -/
theorem load_multicolon_wrong_error :
    from_file decFail decFail (some "/cwd") fsAllOpenErr "a:b:c"
      = RunResult.error FromFileError.InvalidExtension
    ∧ from_file decFail decFail (some "/cwd") fsAllOpenErr "a:b:c"
      ≠ RunResult.error FromFileError.InvalidInput := by
  decide

/-- C1, amended: `from_file` extracts the extension from the RAW input before
any path resolution. For an input with two or more `:` delimiters, the call
fails with `InvalidInput` (propagated unchanged from `get_file_path`) exactly
when the raw input's extension is recognized; when the extension is absent or
unrecognized it fails with `InvalidExtension` instead. -/
theorem load_checks_extension_before_resolution {T : Type}
    (jd yd : String → Except String T) (cwd : Option String)
    (fs : String → FsOutcome) (s : String) (h : 2 ≤ s.data.count ':') :
    ((extension s = some "json" ∨ extension s = some "yml" ∨ extension s = some "yaml") →
      from_file jd yd cwd fs s = RunResult.error FromFileError.InvalidInput)
    ∧ (extension s ≠ some "json" → extension s ≠ some "yml" → extension s ≠ some "yaml" →
      from_file jd yd cwd fs s = RunResult.error FromFileError.InvalidExtension) := by
  have hres := get_file_path_two_colons s h
  constructor
  · rintro (h1 | h1 | h1)
    · rw [from_file_dispatch_json jd yd cwd fs s h1]
      exact from_json_file_resolve_err _ _ _ _ _ hres
    · rw [from_file_dispatch_yaml jd yd cwd fs s (Or.inl h1)]
      exact from_yml_file_resolve_err _ _ _ _ _ hres
    · rw [from_file_dispatch_yaml jd yd cwd fs s (Or.inr h1)]
      exact from_yml_file_resolve_err _ _ _ _ _ hres
  · exact from_file_bad_ext jd yd cwd fs s

/-- C1, witness: `"a:b:c.json"` has three `:`-separated segments and a
recognized extension, so the load fails with `InvalidInput`. -/
theorem load_checks_extension_witness :
    from_file decFail decFail (some "/cwd") fsAllOpenErr "a:b:c.json"
      = RunResult.error FromFileError.InvalidInput :=
  (load_checks_extension_before_resolution decFail decFail (some "/cwd")
    fsAllOpenErr "a:b:c.json" (by decide)).1 (Or.inl (by decide))

/-- C2: `get_file_path` returns the whole input when it contains no `:`,
returns the segment after the `:` when it contains exactly one (discarding the
scheme segment before it without validation), and fails with `InvalidInput`
when it contains two or more. -/
theorem resolve_path_spec (s : String) (a b : List Char) :
    (':' ∉ s.data → get_file_path s = Except.ok s)
    ∧ (':' ∉ a → ':' ∉ b →
        get_file_path (String.mk (a ++ ':' :: b)) = Except.ok (String.mk b))
    ∧ (2 ≤ s.data.count ':' →
        get_file_path s = Except.error FromFileError.InvalidInput) :=
  ⟨get_file_path_no_colon s, get_file_path_one_colon a b,
   get_file_path_two_colons s⟩

/-- C2, witness: the spec's concrete scenarios — a plain path maps to itself,
`"file:conf/app.yaml"` resolves to `"conf/app.yaml"`, and `"a:b:c"` fails with
`InvalidInput`. -/
theorem resolve_path_spec_witness :
    get_file_path "conf/app.yaml" = Except.ok "conf/app.yaml"
    ∧ get_file_path "file:conf/app.yaml" = Except.ok "conf/app.yaml"
    ∧ get_file_path "a:b:c" = Except.error FromFileError.InvalidInput := by
  refine ⟨?_, ?_, ?_⟩
  · exact (resolve_path_spec "conf/app.yaml" [] []).1 (by decide)
  · exact (resolve_path_spec "x" ("file".data) ("conf/app.yaml".data)).2.1
      (by decide) (by decide)
  · exact (resolve_path_spec "a:b:c" [] []).2.2 (by decide)

/-- C3: extension `"json"` dispatches `from_file` to the JSON path
(`from_json_file`), `"yml"` or `"yaml"` dispatch to the YAML path
(`from_yml_file`), and any other or absent extension fails with
`InvalidExtension` — for every filesystem and working directory, so no file is
opened or read in the failing case. -/
theorem extension_dispatch {T : Type} (jd yd : String → Except String T)
    (cwd : Option String) (fs : String → FsOutcome) (p : String) :
    (extension p = some "json" →
      from_file jd yd cwd fs p = from_json_file jd cwd fs p)
    ∧ ((extension p = some "yml" ∨ extension p = some "yaml") →
      from_file jd yd cwd fs p = from_yml_file yd cwd fs p)
    ∧ (extension p ≠ some "json" → extension p ≠ some "yml" →
        extension p ≠ some "yaml" →
      from_file jd yd cwd fs p = RunResult.error FromFileError.InvalidExtension) :=
  ⟨from_file_dispatch_json jd yd cwd fs p,
   from_file_dispatch_yaml jd yd cwd fs p,
   from_file_bad_ext jd yd cwd fs p⟩

/-- C3, witness: concrete dispatches for `"app.json"`, `"app.yml"` and the
failing `"app.txt"`. -/
theorem extension_dispatch_witness :
    from_file decFail decFail (some "/cwd") fsAllOpenErr "app.json"
      = from_json_file decFail (some "/cwd") fsAllOpenErr "app.json"
    ∧ from_file decFail decFail (some "/cwd") fsAllOpenErr "app.yml"
      = from_yml_file decFail (some "/cwd") fsAllOpenErr "app.yml"
    ∧ from_file decFail decFail (some "/cwd") fsAllOpenErr "app.txt"
      = RunResult.error FromFileError.InvalidExtension :=
  ⟨(extension_dispatch decFail decFail (some "/cwd") fsAllOpenErr "app.json").1
      (by decide),
   (extension_dispatch decFail decFail (some "/cwd") fsAllOpenErr "app.yml").2.1
      (Or.inl (by decide)),
   (extension_dispatch decFail decFail (some "/cwd") fsAllOpenErr "app.txt").2.2
      (by decide) (by decide) (by decide)⟩

/-- C4: when the filesystem open fails on the resolved path, the load fails
with `FileOpen` carrying the current working directory joined with the
resolved input path. -/
theorem open_failure_reports_joined_path {T : Type}
    (jd yd : String → Except String T) (c : String) (fs : String → FsOutcome)
    (s p : String)
    (hext : extension s = some "json" ∨ extension s = some "yml" ∨ extension s = some "yaml")
    (hres : get_file_path s = Except.ok p)
    (hopen : fs p = FsOutcome.openErr) :
    from_file jd yd (some c) fs s
      = RunResult.error (FromFileError.FileOpen (pushPath c p)) := by
  rcases hext with h1 | h1 | h1
  · rw [from_file_dispatch_json jd yd _ fs s h1]
    exact from_json_file_open_err _ _ _ _ _ hres hopen
  · rw [from_file_dispatch_yaml jd yd _ fs s (Or.inl h1)]
    exact from_yml_file_open_err _ _ _ _ _ hres hopen
  · rw [from_file_dispatch_yaml jd yd _ fs s (Or.inr h1)]
    exact from_yml_file_open_err _ _ _ _ _ hres hopen

/-- C4, witness: loading `"file:data.json"` with working directory
`"/home/user"` on a filesystem where every open fails yields
`FileOpen "/home/user/data.json"`. -/
theorem open_failure_witness :
    from_file decFail decFail (some "/home/user") fsAllOpenErr "file:data.json"
      = RunResult.error (FromFileError.FileOpen "/home/user/data.json") :=
  open_failure_reports_joined_path decFail decFail "/home/user" fsAllOpenErr
    "file:data.json" "data.json" (Or.inl (by decide)) (by decide) rfl

/-- C5, counterexample: the claim says no panic is reachable on any input or
filesystem outcome, but `file_read` calls
`std::env::current_dir().expect("can read current dir")`, which aborts the
process when the current working directory cannot be read — here reached
through a plain `"conf.json"` load. -/
theorem load_panics_without_cwd :
    from_file decFail decFail none fsAllOpenErr "conf.json"
      = RunResult.panic "can read current dir" := by
  decide

/-- C5, amended: every failure is surfaced as a typed result EXCEPT that
`file_read` panics when the current working directory cannot be read; whenever
the working directory is available, no panic is reachable in `from_file` on
any input or filesystem outcome. -/
theorem no_panic_with_cwd {T : Type} (jd yd : String → Except String T)
    (c : String) (fs : String → FsOutcome) (s : String) :
    isPanic (from_file jd yd (some c) fs s) = false := by
  unfold from_file
  cases hext : extension s with
  | none => rfl
  | some e =>
    by_cases h1 : e = "json"
    · simp only [if_pos h1]
      exact no_panic_from_json_file jd c fs s
    · by_cases h2 : e = "yml" ∨ e = "yaml"
      · simp only [if_neg h1, if_pos h2]
        exact no_panic_from_yml_file yd c fs s
      · simp only [if_neg h1, if_neg h2]
        rfl

/-- C6: whenever the selected decoder rejects the file content, the load fails
with `SerdeError` carrying the decoder's own diagnostic message, unmodified. -/
theorem serde_error_carries_message {T : Type}
    (jd yd : String → Except String T) (c : String) (fs : String → FsOutcome)
    (s p content e : String) :
    (extension s = some "json" → get_file_path s = Except.ok p →
      fs p = FsOutcome.ok content → jd content = Except.error e →
      from_file jd yd (some c) fs s
        = RunResult.error (FromFileError.SerdeError e))
    ∧ ((extension s = some "yml" ∨ extension s = some "yaml") →
      get_file_path s = Except.ok p → fs p = FsOutcome.ok content →
      yd content = Except.error e →
      from_file jd yd (some c) fs s
        = RunResult.error (FromFileError.SerdeError e)) := by
  constructor
  · intro hext hres hfs hdec
    rw [from_file_dispatch_json jd yd _ fs s hext,
        from_json_file_content jd c fs s p content hres hfs]
    simp [from_json_string, hdec, liftE]
  · intro hext hres hfs hdec
    rw [from_file_dispatch_yaml jd yd _ fs s hext,
        from_yml_file_content yd c fs s p content hres hfs]
    simp [from_yaml_string, hdec, liftE]

/-- C6, witness: a boolean decoder rejecting the content `"not a bool"` makes
the load of `"p.json"` fail with `SerdeError "expected boolean"`. -/
theorem serde_error_witness :
    from_file decBool decBool (some "/cwd")
      (fun _ => FsOutcome.ok "not a bool") "p.json"
      = RunResult.error (FromFileError.SerdeError "expected boolean") :=
  (serde_error_carries_message decBool decBool "/cwd"
    (fun _ => FsOutcome.ok "not a bool") "p.json" "p.json" "not a bool"
    "expected boolean").1 (by decide) (by decide) rfl (by decide)

/-- C7: round-trip law — for any type whose decoder inverts its encoder (a
pure data record with no format-specific quirks), loading a file that holds
the encoding of `v` through `from_file` yields exactly `v`, for both the JSON
and the YAML paths. -/
theorem round_trip {T : Type} (jd yd : String → Except String T)
    (enc : T → String) (v : T) (c : String) (fs : String → FsOutcome)
    (s p : String) :
    (jd (enc v) = Except.ok v → extension s = some "json" →
      get_file_path s = Except.ok p → fs p = FsOutcome.ok (enc v) →
      from_file jd yd (some c) fs s = RunResult.ok v)
    ∧ (yd (enc v) = Except.ok v →
      (extension s = some "yml" ∨ extension s = some "yaml") →
      get_file_path s = Except.ok p → fs p = FsOutcome.ok (enc v) →
      from_file jd yd (some c) fs s = RunResult.ok v) := by
  constructor
  · intro hdec hext hres hfs
    rw [from_file_dispatch_json jd yd _ fs s hext,
        from_json_file_content jd c fs s p (enc v) hres hfs]
    simp [from_json_string, hdec, liftE]
  · intro hdec hext hres hfs
    rw [from_file_dispatch_yaml jd yd _ fs s hext,
        from_yml_file_content yd c fs s p (enc v) hres hfs]
    simp [from_yaml_string, hdec, liftE]

/-- C7, witness: encoding `true` with `encBool`, writing it to `"conf.json"`
and loading it back yields `true`. -/
theorem round_trip_witness :
    from_file decBool decBool (some "/cwd")
      (fun _ => FsOutcome.ok (encBool true)) "conf.json" = RunResult.ok true :=
  (round_trip decBool decBool encBool true "/cwd"
    (fun _ => FsOutcome.ok (encBool true)) "conf.json" "conf.json").1
    (by decide) (by decide) (by decide) rfl

/-- C8: each error kind renders by a fixed kind-specific template, whatever
the Unicode classification tables behind `{:?}` — `InvalidExtension`,
`InvalidInput` and `FileRead` are constants, `FileOpen` embeds the Debug form
of the path it carries (and hence contains the path itself whenever every one
of its characters is printable, not grapheme-extended, and not one of the six
specially escaped characters), and `SerdeError` appends the decoder message
verbatim (and hence contains it). -/
theorem error_rendering (printable graphemeExtended : Char → Bool) (p e : String) :
    display printable graphemeExtended FromFileError.InvalidExtension
        = "FromFileError::InvalidExtension"
    ∧ display printable graphemeExtended FromFileError.InvalidInput
        = "FromFileError::InvalidInput"
    ∧ display printable graphemeExtended FromFileError.FileRead
        = "FromFileError::FileRead"
    ∧ display printable graphemeExtended (FromFileError.FileOpen p)
        = "FromFileError::FileOpen - couldn\'t open "
          ++ debugStr printable graphemeExtended p
    ∧ display printable graphemeExtended (FromFileError.SerdeError e)
        = "FromFileError::SerdeError - " ++ e
    ∧ (∃ l r, (display printable graphemeExtended (FromFileError.SerdeError e)).data
        = l ++ e.data ++ r)
    ∧ ((∀ ch ∈ p.data, printable ch = true ∧ graphemeExtended ch = false ∧
          ch ∉ [Char.ofNat 0, '\t', '\r', '\n', '\\', '"']) →
        ∃ l r, (display printable graphemeExtended (FromFileError.FileOpen p)).data
          = l ++ p.data ++ r) := by
  refine ⟨rfl, rfl, rfl, rfl, rfl,
    ⟨("FromFileError::SerdeError - " : String).data, [], ?_⟩, ?_⟩
  · rw [show display printable graphemeExtended (FromFileError.SerdeError e)
        = "FromFileError::SerdeError - " ++ e from rfl, string_data_append]
    simp
  · intro h
    have hesc : ∀ ch ∈ p.data, escapeChar printable graphemeExtended ch = [ch] :=
      fun ch hch => escapeChar_eq_self printable graphemeExtended ch
        (h ch hch).1 (h ch hch).2.1 (h ch hch).2.2
    refine ⟨("FromFileError::FileOpen - couldn\'t open " : String).data ++ ['"'],
      ['"'], ?_⟩
    rw [show display printable graphemeExtended (FromFileError.FileOpen p)
        = "FromFileError::FileOpen - couldn\'t open "
          ++ debugStr printable graphemeExtended p from rfl,
      string_data_append]
    simp [debugStr, join_map_escapeChar printable graphemeExtended p.data hesc]

/-- C8, witness: with the classification tables instantiated on the ASCII
range (where they agree with Rust's), the rendering of
`FileOpen "/tmp/app.json"` contains the carried path as a contiguous
substring. -/
theorem error_rendering_witness :
    ∃ l r, (display asciiPrintable noGraphemeExtended
        (FromFileError.FileOpen "/tmp/app.json")).data
      = l ++ ("/tmp/app.json" : String).data ++ r :=
  (error_rendering asciiPrintable noGraphemeExtended "/tmp/app.json"
    "boom").2.2.2.2.2.2 (by decide)

/-- C9: the derive macro emits exactly the empty capability attachment
`impl FromFile for T { }` — token-for-token what a user would write by hand —
and its semantics resolve every trait operation to the default, identically to
the hand-written empty impl; omitting the generator loses nothing. -/
theorem derive_is_empty_impl (ast : DeriveInput) (T : Type) :
    impl_from_file_gen ast = hand_written_empty_impl ast.ident
    ∧ implSemantics T (impl_from_file_gen ast) = some (defaultMethods T)
    ∧ implSemantics T (impl_from_file_gen ast)
        = implSemantics T (hand_written_empty_impl ast.ident) :=
  ⟨rfl, rfl, rfl⟩

/-- C10: the lower-level `from_json_file` and `from_yml_file` resolve the path
(so two or more `:` delimiters fail with `InvalidInput`) but perform no
extension check at all: whenever resolution and the file read succeed, they
hand the content to their own decoder, whatever the path's extension was. -/
theorem low_level_no_extension_check {T : Type}
    (jd yd : String → Except String T) (c : String) (fs : String → FsOutcome)
    (s p content : String) :
    (2 ≤ s.data.count ':' →
      from_json_file jd (some c) fs s = RunResult.error FromFileError.InvalidInput
      ∧ from_yml_file yd (some c) fs s = RunResult.error FromFileError.InvalidInput)
    ∧ (get_file_path s = Except.ok p → fs p = FsOutcome.ok content →
      from_json_file jd (some c) fs s = liftE (from_json_string jd content)
      ∧ from_yml_file yd (some c) fs s = liftE (from_yaml_string yd content)) := by
  constructor
  · intro h
    have hres := get_file_path_two_colons s h
    exact ⟨from_json_file_resolve_err _ _ _ _ _ hres,
           from_yml_file_resolve_err _ _ _ _ _ hres⟩
  · intro hres hfs
    exact ⟨from_json_file_content _ _ _ _ _ _ hres hfs,
           from_yml_file_content _ _ _ _ _ _ hres hfs⟩

/-- C10, witness: `from_json_file` on the `.yaml` path `"conf.yaml"` decodes
the content as JSON and succeeds, and on `"a:b:c"` fails with
`InvalidInput`. -/
theorem low_level_witness :
    from_json_file decBool (some "/cwd") (fun _ => FsOutcome.ok "true") "conf.yaml"
      = RunResult.ok true
    ∧ from_json_file decBool (some "/cwd") (fun _ => FsOutcome.ok "true") "a:b:c"
      = RunResult.error FromFileError.InvalidInput := by
  constructor
  · have h := (low_level_no_extension_check decBool decBool "/cwd"
      (fun _ => FsOutcome.ok "true") "conf.yaml" "conf.yaml" "true").2
      (by decide) rfl
    rw [h.1]
    decide
  · exact ((low_level_no_extension_check decBool decBool "/cwd"
      (fun _ => FsOutcome.ok "true") "a:b:c" "a:b:c" "true").1 (by decide)).1
